import Mathlib

/-!
Verification development for the credis client library (credis.c / credis.h).

The protocol engine of credis.c is embedded shallowly:

* Bytes are natural numbers (ASCII codes); C strings become lists of bytes.
* The receive buffer (struct cr_buffer) keeps its allocated contents as a
  total function from positions to bytes, so that bytes beyond the valid
  length len (stale or uninitialized memory) are part of the model: the
  source function cr_findnl inspects the byte one past the region it is
  given, so those bytes are observable.
* The network is a value: the remaining wire bytes together with a script
  of receive events (chunk deliveries, timeouts, errors).  recv consumes
  from it.  An empty script means the whole wire is offered at once.
* The send side is likewise driven by a script of select/send outcomes.
* C int values are modelled as Int; where the width of int matters
  (the reply.integer field fed by atoi) the value is reduced by
  two's-complement wrapping at 32 bits, matching the supported
  gcc/glibc platforms.
* realloc is modelled as always succeeding (the claims under study only
  concern successful allocation paths).
-/

/-! ## Constants from credis.c and credis.h -/

def CR_ERROR : Nat := 45      -- the byte code of the minus sign
def CR_INLINE : Nat := 43     -- plus sign
def CR_BULK : Nat := 36       -- dollar sign
def CR_MULTIBULK : Nat := 42  -- asterisk
def CR_INT : Nat := 58        -- colon

def CR_BUFFER_SIZE : Nat := 4096
def CR_BUFFER_WATERMARK : Nat := CR_BUFFER_SIZE / 10 + 1
def CR_MULTIBULK_SIZE : Nat := 256

def CREDIS_ERR_NOMEM : Int := -91
def CREDIS_ERR_RESOLVE : Int := -92
def CREDIS_ERR_CONNECT : Int := -93
def CREDIS_ERR_SEND : Int := -94
def CREDIS_ERR_RECV : Int := -95
def CREDIS_ERR_TIMEOUT : Int := -96
def CREDIS_ERR_PROTOCOL : Int := -97

/-! ## Permissive integer parsing (C atoi) -/

def isSpaceByte (c : Nat) : Bool :=
  if c = 32 ∨ c = 9 ∨ c = 10 ∨ c = 11 ∨ c = 12 ∨ c = 13 then true else false

def isDigitByte (c : Nat) : Bool :=
  if 48 ≤ c ∧ c ≤ 57 then true else false

def skipSpaces : List Nat → List Nat
  | [] => []
  | c :: rest => if isSpaceByte c then skipSpaces rest else c :: rest

def digitsVal : Nat → List Nat → Nat
  | acc, [] => acc
  | acc, c :: rest => if isDigitByte c then digitsVal (acc * 10 + (c - 48)) rest else acc

/-- Model of the C standard atoi: skip whitespace, optional sign, then the
longest digit prefix; a string with no digits at that point has value 0.
The width of int does not enter here; it is applied at the storage site
(see c_int_wrap). -/
def atoi (s : List Nat) : Int :=
  match skipSpaces s with
  | 45 :: rest => -(digitsVal 0 rest : Int)
  | 43 :: rest => (digitsVal 0 rest : Int)
  | t => (digitsVal 0 t : Int)

/-- Reduction of an integer to the range of a 32-bit C int by
two's-complement wrapping, the behavior of the int-typed fields of
credis.c on the supported gcc/glibc platforms. -/
def c_int_wrap (z : Int) : Int :=
  ((z + 2 ^ 31) % 2 ^ 32) - 2 ^ 31

/-! ## The growable receive buffer (struct cr_buffer) -/

/-- Model of struct cr_buffer.  data is the full allocated contents as a
total function (indices at or beyond size model reads past the
allocation); idx is the unconsumed-read cursor, len the number of valid
bytes, size the capacity.  Field order follows the C struct. -/
structure CrBuffer where
  data : Nat → Nat
  idx : Nat
  len : Nat
  size : Nat

/-- Model of cr_moremem: realloc to size + (size_arg / CR_BUFFER_SIZE + 1)
blocks of CR_BUFFER_SIZE.  realloc preserves the previously allocated
contents; allocation is modelled as always succeeding. -/
def cr_moremem (buf : CrBuffer) (sz : Nat) : CrBuffer :=
  let n := sz / CR_BUFFER_SIZE + 1
  { buf with size := buf.size + n * CR_BUFFER_SIZE }

/-- Pointwise store used for the zero-termination write of cr_readln. -/
def updData (f : Nat → Nat) (i v : Nat) : Nat → Nat :=
  fun j => if j = i then v else f j

/-- Store of a received chunk at offset off, as recv does into data + len. -/
def writeBytes (f : Nat → Nat) (off : Nat) (bs : List Nat) : Nat → Nat :=
  fun j => if off ≤ j ∧ j < off + bs.length then bs.getD (j - off) 0 else f j

/-- Model of cr_findnl over the allocated contents: scan L positions from s
for a carriage return; on finding one at position p, inspect the byte at
p + 1 (the source does this even when p is the last position of the given
region, reading one byte past it) and succeed if it is a newline.
Returns the position of the carriage return. -/
def cr_findnl (data : Nat → Nat) : Nat → Nat → Option Nat
  | _, 0 => none
  | s, Nat.succ l =>
    if data s = 13 ∧ data (s + 1) = 10 then some s else cr_findnl data (s + 1) l

/-! ## The network (socket receive side) -/

inductive NetEv where
  | deliver (k : Nat)   -- select readable, recv offers up to k bytes of the wire
  | tmo                 -- select times out: cr_receivedata returns -2
  | nerr                -- select error: cr_receivedata returns -1
deriving DecidableEq, Repr

/-- The receive side of the socket: the bytes still to arrive and the
script of receive events.  An exhausted script offers the whole remaining
wire in one chunk; an exhausted wire means the peer closed the
connection. -/
structure Net where
  wire : List Nat
  evs : List NetEv

structure RecvRes where
  rc : Int
  bytes : List Nat
  net : Net

/-- Model of cr_receivedata: one select/recv round.  avail is the space the
caller offers; a delivery hands over at most that many bytes and at most
what remains on the wire.  Call sites always pass avail at least 1. -/
def recvStep (net : Net) (avail : Nat) : RecvRes :=
  match net.evs with
  | [] =>
    if net.wire.isEmpty then ⟨0, [], net⟩
    else
      let t := min avail net.wire.length
      ⟨(t : Int), net.wire.take t, ⟨net.wire.drop t, []⟩⟩
  | NetEv.tmo :: rest => ⟨-2, [], ⟨net.wire, rest⟩⟩
  | NetEv.nerr :: rest => ⟨-1, [], ⟨net.wire, rest⟩⟩
  | NetEv.deliver k :: rest =>
    if net.wire.isEmpty then ⟨0, [], ⟨net.wire, rest⟩⟩
    else
      let t := min (min (max k 1) avail) net.wire.length
      ⟨(t : Int), net.wire.take t, ⟨net.wire.drop t, rest⟩⟩

/-! ## Buffered line reading (cr_readln) -/

/-- Result of cr_readln.  rc is the C return value (length of the line,
0 for end of stream, negative on error).  line and lidx model the
out-parameters, which the source leaves unset on failure. -/
structure RlnRes where
  rc : Int
  line : Option (List Nat)
  lidx : Option Nat
  buf : CrBuffer
  net : Net

/-- The growth step inside the cr_readln loop: grow when headroom is below
the watermark or below the computed shortfall. -/
def readlnGrow (buf : CrBuffer) (more : Nat) : CrBuffer :=
  if buf.size - buf.len < CR_BUFFER_WATERMARK ∨ buf.size - buf.len < more
  then cr_moremem buf (if 0 < more then more else 1) else buf

/-- The receive loop of cr_readln.  t is buf.idx + start, the position at
or after which the terminator is sought.  Each round either finds the
terminator (via cr_findnl, which may consult the stale byte at position
buf.len), or grows the buffer when headroom is below the watermark or the
computed shortfall and then receives more data.  fuel bounds the
recursion; the wrapper passes a bound that a delivery-counting argument
shows is never exhausted (every round consumes a script event or at least
one wire byte). -/
def readlnLoop : Nat → CrBuffer → Net → Nat → RlnRes
  | 0, buf, net, _ => ⟨-1, none, none, buf, net⟩
  | Nat.succ fuel, buf, net, t =>
    let more : Nat := t + 2 - buf.len
    let found : Option Nat :=
      if 0 < more then none else cr_findnl buf.data t (buf.len - t)
    match found with
    | some nl =>
      ⟨(nl : Int) - (buf.idx : Int),
       some ((List.range (nl - buf.idx)).map (fun j => buf.data (buf.idx + j))),
       some buf.idx,
       { buf with data := updData buf.data nl 0, idx := nl + 2 },
       net⟩
    | none =>
      let buf1 := readlnGrow buf more
      let rcv := recvStep net (buf1.size - buf1.len)
      if 0 < rcv.rc then
        readlnLoop fuel
          { buf1 with
            data := writeBytes buf1.data buf1.len rcv.bytes,
            len := buf1.len + rcv.bytes.length }
          rcv.net t
      else if rcv.rc = 0 then ⟨0, none, none, buf1, rcv.net⟩
      else ⟨-1, none, none, buf1, rcv.net⟩

/-- Model of cr_readln.  start may be negative (the source passes a bulk
length straight through); a target before the start of the buffer is a
heap-underflow read, undefined behavior in C, modelled as an error and
unreachable in the claims below, all of which concern start at least 0. -/
def cr_readln (buf : CrBuffer) (net : Net) (start : Int) : RlnRes :=
  let target : Int := (buf.idx : Int) + start
  if target < 0 then ⟨-1, none, none, buf, net⟩
  else readlnLoop (net.evs.length + net.wire.length + 1) buf net target.toNat

/-! ## Reply storage (struct cr_multibulk, struct cr_reply) -/

/-- Model of struct cr_multibulk.  idxs is the offset array as a total
function (the allocation is CR_MULTIBULK_SIZE entries initially and only
entries below len are meaningful); bulks is derived from idxs at the end
of a decode and is not stored separately. -/
structure CrMultibulk where
  idxs : Nat → Int
  size : Nat
  len : Nat

/-- Model of cr_morebulk: grow the multibulk store by
(size_arg / CR_MULTIBULK_SIZE + 1) * CR_MULTIBULK_SIZE entries. -/
def cr_morebulk (mb : CrMultibulk) (sz : Nat) : CrMultibulk :=
  let n := (sz / CR_MULTIBULK_SIZE + 1) * CR_MULTIBULK_SIZE
  { mb with size := mb.size + n }

/-- Model of struct cr_reply.  line and bulk are NULL-able views into the
buffer, modelled by the byte lists they point at. -/
structure CrReply where
  integer : Int
  line : Option (List Nat)
  bulk : Option (List Nat)
  mb : CrMultibulk

/-- The connection state the decoder touches: the shared buffer and the
reply under construction (struct cr_redis, protocol-relevant part). -/
structure Conn where
  buf : CrBuffer
  reply : CrReply

/-! ## The reply decoder -/

structure DecRes where
  code : Int
  buf : CrBuffer
  net : Net
  rep : CrReply

def cr_receiveinline (rep : CrReply) (l : List Nat) : Int × CrReply :=
  (0, { rep with line := some l })

def cr_receiveint (rep : CrReply) (l : List Nat) : Int × CrReply :=
  (0, { rep with integer := c_int_wrap (atoi l) })

def cr_receiveerror (rep : CrReply) (l : List Nat) : Int × CrReply :=
  (CREDIS_ERR_PROTOCOL, { rep with line := some l })

/-- Model of cr_receivebulk.  ln is the text after the dollar prefix.  The
source accepts any non-negative cr_readln result (it does not compare the
returned length with the declared one); on an end-of-stream result the
line out-parameter is left unset, so reply.bulk receives the caller's
stale pointer, which points at the length text ln. -/
def cr_receivebulk (buf : CrBuffer) (net : Net) (rep : CrReply) (ln : List Nat) : DecRes :=
  let blen := atoi ln
  if blen = -1 then ⟨0, buf, net, { rep with bulk := none }⟩
  else
    let r := cr_readln buf net blen
    if 0 ≤ r.rc then ⟨0, r.buf, r.net, { rep with bulk := some (r.line.getD ln) }⟩
    else ⟨CREDIS_ERR_PROTOCOL, r.buf, r.net, rep⟩

structure MbRes where
  code : Int
  buf : CrBuffer
  net : Net
  idxs : Nat → Int
  count : Nat

def updIdxs (f : Nat → Int) (i : Nat) (v : Int) : Nat → Int :=
  fun j => if j = i then v else f j

/-- The element loop of cr_receivemultibulk.  The first argument is the
remaining element count bnum; i counts consumed elements; iv models the
local variable idx, which the source declares without initializing and
which cr_readln leaves unset on an end-of-stream return (modelled by
threading the last written value, starting from 0). -/
def mbLoop : Nat → CrBuffer → Net → (Nat → Int) → Nat → Nat → MbRes
  | 0, buf, net, idxs, i, _ => ⟨0, buf, net, idxs, i⟩
  | Nat.succ bn, buf, net, idxs, i, iv =>
    let r := cr_readln buf net 0
    if 0 < r.rc then
      let l := r.line.getD []
      if l.headD 0 = CR_BULK then
        let blen := atoi l.tail
        if blen = -1 then mbLoop bn r.buf r.net (updIdxs idxs i (-1)) (i + 1) iv
        else
          let r2 := cr_readln r.buf r.net blen
          if r2.rc = blen then
            mbLoop bn r2.buf r2.net
              (updIdxs idxs i ((r2.lidx.getD iv : Nat) : Int)) (i + 1) (r2.lidx.getD iv)
          else ⟨CREDIS_ERR_PROTOCOL, r2.buf, r2.net, idxs, i⟩
      else ⟨CREDIS_ERR_PROTOCOL, r.buf, r.net, idxs, i⟩
    else ⟨CREDIS_ERR_PROTOCOL, r.buf, r.net, idxs, i⟩

/-- Model of cr_receivemultibulk.  ln is the text after the asterisk
prefix.  A count of -1 stores zero elements; otherwise the store is grown
when the count exceeds its capacity, the element loop runs, and a loop
that did not consume exactly the declared count yields a protocol
error. -/
def cr_receivemultibulk (buf : CrBuffer) (net : Net) (rep : CrReply) (ln : List Nat) : DecRes :=
  let bnum := atoi ln
  if bnum = -1 then ⟨0, buf, net, { rep with mb := { rep.mb with len := 0 } }⟩
  else
    let mb1 :=
      if (rep.mb.size : Int) < bnum then cr_morebulk rep.mb (bnum - rep.mb.size).toNat
      else rep.mb
    if bnum < 0 then ⟨CREDIS_ERR_PROTOCOL, buf, net, { rep with mb := mb1 }⟩
    else
      let r := mbLoop bnum.toNat buf net mb1.idxs 0 0
      if r.code = 0 then ⟨0, r.buf, r.net, { rep with mb := ⟨r.idxs, mb1.size, r.count⟩ }⟩
      else ⟨r.code, r.buf, r.net, { rep with mb := { mb1 with idxs := r.idxs } }⟩

structure ReplyRes where
  code : Int
  conn : Conn
  net : Net

/-- The buffer reset at the start of cr_receivereply. -/
def bufReset (b : CrBuffer) : CrBuffer :=
  { b with len := 0, idx := 0 }

/-- Dispatch of cr_receivereply on the first byte of the first line, given
the result of the initial cr_readln. -/
def cr_receivereply_dispatch (conn : Conn) (rt : Nat) (r : RlnRes) : ReplyRes :=
  if 0 < r.rc then
    let l := r.line.getD []
    let p := l.headD 0
    if p ≠ rt ∧ p ≠ CR_ERROR then ⟨CREDIS_ERR_PROTOCOL, ⟨r.buf, conn.reply⟩, r.net⟩
    else if p = CR_ERROR then
      let e := cr_receiveerror conn.reply l.tail
      ⟨e.1, ⟨r.buf, e.2⟩, r.net⟩
    else if p = CR_INLINE then
      let e := cr_receiveinline conn.reply l.tail
      ⟨e.1, ⟨r.buf, e.2⟩, r.net⟩
    else if p = CR_INT then
      let e := cr_receiveint conn.reply l.tail
      ⟨e.1, ⟨r.buf, e.2⟩, r.net⟩
    else if p = CR_BULK then
      let d := cr_receivebulk r.buf r.net conn.reply l.tail
      ⟨d.code, ⟨d.buf, d.rep⟩, d.net⟩
    else if p = CR_MULTIBULK then
      let d := cr_receivemultibulk r.buf r.net conn.reply l.tail
      ⟨d.code, ⟨d.buf, d.rep⟩, d.net⟩
    else ⟨CREDIS_ERR_RECV, ⟨r.buf, conn.reply⟩, r.net⟩
  else ⟨CREDIS_ERR_RECV, ⟨r.buf, conn.reply⟩, r.net⟩

/-- Model of cr_receivereply: reset the buffer cursors, read the first
line, dispatch on its prefix byte. -/
def cr_receivereply (conn : Conn) (net : Net) (rt : Nat) : ReplyRes :=
  cr_receivereply_dispatch conn rt (cr_readln (bufReset conn.buf) net 0)

/-- Model of credis_errorreply: the stored reply line. -/
def credis_errorreply (conn : Conn) : Option (List Nat) :=
  conn.reply.line

/-! ## The send side (cr_senddata, cr_sendandreceive) -/

inductive SendEv where
  | acc (k : Nat)   -- select writable, send accepts up to k bytes
  | tmo             -- select times out
  | selErr          -- select fails
  | sndErr          -- send fails
deriving DecidableEq, Repr

inductive SendOutcome where
  | completed
  | timedout
  | failed
deriving DecidableEq, Repr

/-- The send loop of cr_senddata, driven by a script of select/send
outcomes; an exhausted script behaves as a timeout.  Returns the C return
value: the byte count sent, or -1 on a socket error.  The loop body runs
only while fewer than size bytes are sent; a round accepts at most the
remaining byte count. -/
def senddataGo (size : Nat) : List SendEv → Nat → Int
  | [], sent => (sent : Int)
  | SendEv.tmo :: _, sent => (sent : Int)
  | SendEv.selErr :: _, sent => if size ≤ sent then (sent : Int) else -1
  | SendEv.sndErr :: _, sent => if size ≤ sent then (sent : Int) else -1
  | SendEv.acc k :: rest, sent =>
    if size ≤ sent then (sent : Int)
    else senddataGo size rest (sent + min k (size - sent))

/-- How a cr_senddata run ends: all bytes sent, a timeout with bytes
remaining, or a socket error. -/
def senddataOutcome (size : Nat) : List SendEv → Nat → SendOutcome
  | [], sent => if size ≤ sent then SendOutcome.completed else SendOutcome.timedout
  | SendEv.tmo :: _, sent => if size ≤ sent then SendOutcome.completed else SendOutcome.timedout
  | SendEv.selErr :: _, sent => if size ≤ sent then SendOutcome.completed else SendOutcome.failed
  | SendEv.sndErr :: _, sent => if size ≤ sent then SendOutcome.completed else SendOutcome.failed
  | SendEv.acc k :: rest, sent =>
    if size ≤ sent then SendOutcome.completed
    else senddataOutcome size rest (sent + min k (size - sent))

def cr_senddata (evs : List SendEv) (size : Nat) : Int :=
  senddataGo size evs 0

/-- Model of cr_sendandreceive: send the buffered message of conn.buf.len
bytes; a result short of the full length is a timeout unless it is
negative, which is a send error; on a full send, decode one reply. -/
def cr_sendandreceive (conn : Conn) (evs : List SendEv) (rt : Nat) (net : Net) : ReplyRes :=
  let rc := cr_senddata evs conn.buf.len
  if rc ≠ (conn.buf.len : Int) then
    if rc < 0 then ⟨CREDIS_ERR_SEND, conn, net⟩ else ⟨CREDIS_ERR_TIMEOUT, conn, net⟩
  else cr_receivereply conn net rt

/-! ## Set/sorted-set add wrappers (cr_setaddrem, credis_zadd, credis_sadd) -/

/-- Model of the tail of cr_setaddrem: a successful integer round-trip
whose reply value is 0 is mapped to -1. -/
def cr_setaddrem (conn : Conn) (evs : List SendEv) (net : Net) : ReplyRes :=
  let r := cr_sendandreceive conn evs CR_INT net
  if r.code = 0 ∧ r.conn.reply.integer = 0 then ⟨-1, r.conn, r.net⟩ else r

def credis_sadd (conn : Conn) (evs : List SendEv) (net : Net) : ReplyRes :=
  cr_setaddrem conn evs net

/-- Model of the reply handling of credis_zadd, which duplicates the
cr_setaddrem mapping inline. -/
def credis_zadd (conn : Conn) (evs : List SendEv) (net : Net) : ReplyRes :=
  let r := cr_sendandreceive conn evs CR_INT net
  if r.code = 0 ∧ r.conn.reply.integer = 0 then ⟨-1, r.conn, r.net⟩ else r

/-! ## The version scan of credis_connect -/

/-- Match of the literal part of a scanf format against the input. -/
def matchLit : List Nat → List Nat → Option (List Nat)
  | [], s => some s
  | _ :: _, [] => none
  | c :: cs, x :: xs => if x = c then matchLit cs xs else none

def takeDigits : List Nat → List Nat × List Nat
  | [] => ([], [])
  | c :: rest =>
    if isDigitByte c then
      let d := takeDigits rest
      (c :: d.1, d.2)
    else ([], c :: rest)

/-- A %d conversion of sscanf: skip whitespace, optional sign, at least
one digit; fails (no conversion) otherwise. -/
def scanfD (s : List Nat) : Option (Int × List Nat) :=
  match skipSpaces s with
  | 45 :: r =>
    match takeDigits r with
    | ([], _) => none
    | (ds, rest) => some (-(digitsVal 0 ds : Int), rest)
  | 43 :: r =>
    match takeDigits r with
    | ([], _) => none
    | (ds, rest) => some ((digitsVal 0 ds : Int), rest)
  | t =>
    match takeDigits t with
    | ([], _) => none
    | (ds, rest) => some ((digitsVal 0 ds : Int), rest)

/-- The bytes of the literal redis_version: . -/
def rvLit : List Nat := [114, 101, 100, 105, 115, 95, 118, 101, 114, 115, 105, 111, 110, 58]

/-- One sscanf of the token against redis_version:%d.%d.%d : returns the
number of conversions and the (partially) updated version triple, exactly
as sscanf assigns fields one by one.  An input failure before the first
conversion (sscanf returns EOF) is indistinguishable from a matching
failure at the call site, which only compares against 2; both are
returned as 0. -/
def applyScan (tok : List Nat) (v : Int × Int × Int) : Nat × (Int × Int × Int) :=
  match matchLit rvLit tok with
  | none => (0, v)
  | some r0 =>
    match scanfD r0 with
    | none => (0, v)
    | some (a, r1) =>
      match r1 with
      | 46 :: r2 =>
        match scanfD r2 with
        | none => (1, (a, v.2.1, v.2.2))
        | some (b, r3) =>
          match r3 with
          | 46 :: r4 =>
            match scanfD r4 with
            | none => (2, (a, b, v.2.2))
            | some (c, _) => (3, (a, b, c))
          | _ => (2, (a, b, v.2.2))
      | _ => (1, (a, v.2.1, v.2.2))

/-- The strsep token loop of credis_connect: scan tokens while fewer than
two items have been converted. -/
def scanTokens : List (List Nat) → Nat → (Int × Int × Int) → Nat × (Int × Int × Int)
  | [], items, v => (items, v)
  | t :: ts, items, v =>
    if items < 2 then
      let r := applyScan t v
      scanTokens ts r.1 r.2
    else (items, v)

/-- strsep splitting on carriage return and newline: a token boundary at
every occurrence of either byte, keeping empty tokens. -/
def splitRN : List Nat → List (List Nat)
  | [] => [[]]
  | c :: rest =>
    let r := splitRN rest
    if c = 13 ∨ c = 10 then [] :: r
    else (c :: r.headD []) :: r.tailD []

/-- Model of the version-negotiation tail of credis_connect: given the
result of the INFO round-trip and its bulk payload, decide whether a
handle is returned and with which version triple.  When the INFO request
itself fails, the source skips the whole scan and returns the handle with
the calloc-zeroed version; only a successful INFO with fewer than two
converted items reaches the error exit.  Two converted items are the
legacy format: the second component is stored as patch and minor is
forced to 0. -/
def connectVersionPhase (infoRc : Int) (payload : List Nat) : Option (Int × Int × Int) :=
  if infoRc = 0 then
    let s := scanTokens (splitRN payload) 0 (0, 0, 0)
    if s.1 < 2 then none
    else if s.1 = 2 then some (s.2.1, 0, s.2.2.1)
    else some s.2
  else some (0, 0, 0)

/-! ## Concrete states used by the claim instances -/

def zeroData : Nat → Nat := fun _ => 0

/-- The buffer of a fresh handle from cr_new (CR_BUFFER_SIZE bytes; the
malloc contents are not initialized, all-zero being one possible
content). -/
def freshBuf : CrBuffer := ⟨zeroData, 0, 0, CR_BUFFER_SIZE⟩

/-- The reply record of a fresh handle (the handle itself is calloc-zeroed;
the multibulk arrays are malloc allocations of CR_MULTIBULK_SIZE entries,
their contents modelled as zero). -/
def freshReply : CrReply := ⟨0, none, none, ⟨fun _ => 0, CR_MULTIBULK_SIZE, 0⟩⟩

def freshConn : Conn := ⟨freshBuf, freshReply⟩

/-! ## Concrete protocol exchanges used by the claim instances -/

/-- Wire of a first status reply, the five bytes of +OK CRLF. -/
def net1 : Net := ⟨[43, 79, 75, 13, 10], []⟩

/-- A first, well-formed decode on a fresh connection. -/
def run1 : ReplyRes := cr_receivereply freshConn net1 CR_INLINE

def conn1 : Conn := run1.conn

/-- Wire of a second status reply +ab CRLF, delivered in two chunks split
between the carriage return and the newline. -/
def net2 : Net := ⟨[43, 97, 98, 13, 10], [NetEv.deliver 4, NetEv.deliver 1]⟩

/-- The second decode: the first chunk ends with the carriage return, and
the byte after it in the buffer is the stale newline of run1. -/
def run2 : ReplyRes := cr_receivereply conn1 net2 CR_INLINE

/-- The buffer state the decoder hands to the Line Reader at the start of
a decode after run1 (the reset of cr_receivereply). -/
def bufR : CrBuffer := { conn1.buf with idx := 0, len := 0 }

/-- Wire bytes +ab CR Z CR LF: a line whose text contains a bare carriage
return followed by a byte that is not a newline. -/
def wireC2 : List Nat := [43, 97, 98, 13, 90, 13, 10]

def rlnSingle : RlnRes := cr_readln bufR ⟨wireC2, []⟩ 0

def rlnChunked : RlnRes := cr_readln bufR ⟨wireC2, [NetEv.deliver 4, NetEv.deliver 3]⟩ 0

/-- Wire of a multibulk reply declaring one element with a zero-length
bulk payload, after which the peer closes the connection:
asterisk 1 CRLF dollar 0 CRLF and nothing more. -/
def net3 : Net := ⟨[42, 49, 13, 10, 36, 48, 13, 10], []⟩

def run3 : ReplyRes := cr_receivereply freshConn net3 CR_MULTIBULK

/-- Wire of a bulk reply declaring length 3 whose payload line carries six
bytes: dollar 3 CRLF f o o b a r CRLF. -/
def net4 : Net := ⟨[36, 51, 13, 10, 102, 111, 111, 98, 97, 114, 13, 10], []⟩

def run4 : ReplyRes := cr_receivereply freshConn net4 CR_BULK

/-- Wire of a server error reply, minus E R R space x CRLF. -/
def net5a : Net := ⟨[45, 69, 82, 82, 32, 120, 13, 10], []⟩

/-- Wire of a structurally malformed reply with unknown prefix, bang x CRLF. -/
def net5b : Net := ⟨[33, 120, 13, 10], []⟩

/-- Wire of an integer reply colon 3000000000 CRLF, a value inside i64 but
outside 32-bit int range. -/
def net9 : Net := ⟨[58, 51, 48, 48, 48, 48, 48, 48, 48, 48, 48, 13, 10], []⟩

/-- A connection whose buffer holds a rendered five-byte command. -/
def conn5 : Conn := ⟨⟨zeroData, 0, 5, CR_BUFFER_SIZE⟩, freshReply⟩

/-- Wire of an integer reply colon 0 CRLF. -/
def net10 : Net := ⟨[58, 48, 13, 10], []⟩

/-- The bulk INFO payload text redis_version:1.02 (legacy two-component). -/
def payload102 : List Nat := rvLit ++ [49, 46, 48, 50]

/-- Network and script values used by witness instances below. -/
def netW1 : Net := ⟨[97, 98, 99, 13, 10], []⟩

def evsW : List SendEv := [SendEv.acc 3, SendEv.tmo]

def evsW2 : List SendEv := [SendEv.acc 9]

/-! ## Supporting lemmas -/

theorem readlnGrow_idx (buf : CrBuffer) (more : Nat) : (readlnGrow buf more).idx = buf.idx := by
  unfold readlnGrow cr_moremem
  split <;> rfl

theorem cr_findnl_ge (data : Nat → Nat) :
    ∀ (l s p : Nat), cr_findnl data s l = some p → s ≤ p := by
  intro l
  induction l with
  | zero => intro s p h; simp [cr_findnl] at h
  | succ l ih =>
    intro s p h
    rw [cr_findnl] at h
    split at h
    · cases h
      exact Nat.le_refl s
    · exact Nat.le_of_succ_le (ih (s + 1) p h)

theorem readlnLoop_rc_ge :
    ∀ (f : Nat) (buf : CrBuffer) (net : Net) (t : Nat),
      0 < (readlnLoop f buf net t).rc →
      (t : Int) ≤ (readlnLoop f buf net t).rc + buf.idx := by
  intro f
  induction f with
  | zero =>
    intro buf net t h
    simp [readlnLoop] at h
  | succ f ih =>
    intro buf net t h
    rw [readlnLoop] at h ⊢
    split at h
    case _ nl heq =>
      split at heq
      · cases heq
      · have hge := cr_findnl_ge buf.data (buf.len - t) t nl heq
        simp only at h ⊢
        omega
    case _ heq =>
      simp only at h ⊢
      split at h
      case isTrue hc =>
        rw [if_pos hc]
        simpa only [readlnGrow_idx] using ih _ _ _ h
      case isFalse hc =>
        split at h <;> simp at h

theorem cr_readln_rc_ge (buf : CrBuffer) (net : Net) (start : Int)
    (hs : 0 ≤ start) (h : 0 < (cr_readln buf net start).rc) :
    start ≤ (cr_readln buf net start).rc := by
  unfold cr_readln at h ⊢
  rw [if_neg (by omega)] at h ⊢
  have h2 := readlnLoop_rc_ge _ _ _ _ h
  have h3 : (((buf.idx : Int) + start).toNat : Int) = (buf.idx : Int) + start := by
    omega
  omega

theorem mbLoop_code :
    ∀ (n : Nat) (buf : CrBuffer) (net : Net) (idxs : Nat → Int) (i iv : Nat),
      (mbLoop n buf net idxs i iv).code = 0 ∨
      (mbLoop n buf net idxs i iv).code = CREDIS_ERR_PROTOCOL := by
  intro n
  induction n with
  | zero => intro buf net idxs i iv; left; rfl
  | succ n ih =>
    intro buf net idxs i iv
    simp only [mbLoop]
    split
    · split
      · split
        · exact ih _ _ _ _ _
        · split
          · exact ih _ _ _ _ _
          · right; rfl
      · right; rfl
    · right; rfl

theorem cr_receivemultibulk_code (buf : CrBuffer) (net : Net) (rep : CrReply) (ln : List Nat) :
    (cr_receivemultibulk buf net rep ln).code = 0 ∨
    (cr_receivemultibulk buf net rep ln).code = CREDIS_ERR_PROTOCOL := by
  simp only [cr_receivemultibulk]
  split
  · left; rfl
  · split
    · right; rfl
    · split
      · split
        · left; rfl
        · rename_i hgrow hne
          rcases mbLoop_code (atoi ln).toNat buf net
              (cr_morebulk rep.mb (atoi ln - (rep.mb.size : Int)).toNat).idxs 0 0 with h | h
          · exact absurd h hne
          · right; exact h
      · split
        · left; rfl
        · rename_i hne
          rcases mbLoop_code (atoi ln).toNat buf net rep.mb.idxs 0 0 with h | h
          · exact absurd h hne
          · right; exact h

theorem cr_receivebulk_code (buf : CrBuffer) (net : Net) (rep : CrReply) (ln : List Nat) :
    (cr_receivebulk buf net rep ln).code = 0 ∨
    (cr_receivebulk buf net rep ln).code = CREDIS_ERR_PROTOCOL := by
  simp only [cr_receivebulk]
  split
  · left; rfl
  · split
    · left; rfl
    · right; rfl

theorem cr_receivereply_ne_send (conn : Conn) (net : Net) (rt : Nat) :
    (cr_receivereply conn net rt).code ≠ CREDIS_ERR_SEND := by
  simp only [cr_receivereply, cr_receivereply_dispatch]
  split
  · split
    · simp [CREDIS_ERR_PROTOCOL, CREDIS_ERR_SEND]
    · split
      · simp [cr_receiveerror, CREDIS_ERR_PROTOCOL, CREDIS_ERR_SEND]
      · split
        · simp [cr_receiveinline, CREDIS_ERR_SEND]
        · split
          · simp [cr_receiveint, CREDIS_ERR_SEND]
          · split
            · rcases cr_receivebulk_code (cr_readln (bufReset conn.buf) net 0).buf
                (cr_readln (bufReset conn.buf) net 0).net conn.reply
                (((cr_readln (bufReset conn.buf) net 0).line.getD []).tail) with h | h <;>
                simp [h, CREDIS_ERR_PROTOCOL, CREDIS_ERR_SEND]
            · split
              · rcases cr_receivemultibulk_code (cr_readln (bufReset conn.buf) net 0).buf
                  (cr_readln (bufReset conn.buf) net 0).net conn.reply
                  (((cr_readln (bufReset conn.buf) net 0).line.getD []).tail) with h | h <;>
                  simp [h, CREDIS_ERR_PROTOCOL, CREDIS_ERR_SEND]
              · simp [CREDIS_ERR_RECV, CREDIS_ERR_SEND]
  · simp [CREDIS_ERR_RECV, CREDIS_ERR_SEND]

theorem senddata_timedout :
    ∀ (size : Nat) (evs : List SendEv) (sent : Nat),
      senddataOutcome size evs sent = SendOutcome.timedout →
      0 ≤ senddataGo size evs sent ∧ senddataGo size evs sent < (size : Int) := by
  intro size evs
  induction evs with
  | nil =>
    intro sent h
    simp only [senddataOutcome] at h
    simp only [senddataGo]
    split at h
    · cases h
    · rename_i hlt
      exact ⟨Int.ofNat_nonneg sent, by omega⟩
  | cons e rest ih =>
    intro sent h
    cases e with
    | tmo =>
      simp only [senddataOutcome] at h
      simp only [senddataGo]
      split at h
      · cases h
      · rename_i hlt
        exact ⟨Int.ofNat_nonneg sent, by omega⟩
    | selErr =>
      simp only [senddataOutcome] at h
      split at h <;> cases h
    | sndErr =>
      simp only [senddataOutcome] at h
      split at h <;> cases h
    | acc k =>
      simp only [senddataOutcome] at h
      simp only [senddataGo]
      split at h
      · cases h
      · rename_i hlt
        rw [if_neg hlt]
        exact ih _ h


/-! ## Claim theorems -/

/-- C1, counterexample.  The bulk reply dollar 3 CRLF foobar CRLF declares
length 3, but the payload line returned by the Line Reader has length 6;
the claim requires a ProtocolError on any returned length different from
the declared one, yet the decoder succeeds and stores the six-byte slice
foobar as the Bulk value. -/
theorem receivebulk_accepts_long_line :
    run4.code = 0 ∧ run4.conn.reply.bulk = some [102, 111, 111, 98, 97, 114] := by
  decide

/-- C1, amended.  For a bulk reply with non-negative declared length n,
cr_receivebulk never compares the returned line length with n: it stores
the returned slice as the Bulk value whenever cr_readln returns a
non-negative result (on an end-of-stream 0 the stale length text is
stored), and fails with ProtocolError exactly when cr_readln returns a
negative result.  A successful payload line is never shorter than n, only
equal or longer. -/
theorem receivebulk_no_short_check (buf : CrBuffer) (net : Net) (rep : CrReply) (lt : List Nat)
    (hn : 0 ≤ atoi lt) :
    ((cr_receivebulk buf net rep lt).code = 0 ↔ 0 ≤ (cr_readln buf net (atoi lt)).rc) ∧
    (0 ≤ (cr_readln buf net (atoi lt)).rc →
      (cr_receivebulk buf net rep lt).rep.bulk =
        some ((cr_readln buf net (atoi lt)).line.getD lt)) ∧
    ((cr_readln buf net (atoi lt)).rc < 0 →
      (cr_receivebulk buf net rep lt).code = CREDIS_ERR_PROTOCOL) ∧
    (0 < (cr_readln buf net (atoi lt)).rc → atoi lt ≤ (cr_readln buf net (atoi lt)).rc) := by
  have hne : atoi lt ≠ -1 := by omega
  simp only [cr_receivebulk, if_neg hne]
  by_cases h0 : 0 ≤ (cr_readln buf net (atoi lt)).rc
  · rw [if_pos h0]
    refine ⟨by simp [h0], fun _ => rfl, fun hlt => absurd h0 (by omega), ?_⟩
    intro hpos
    exact cr_readln_rc_ge buf net (atoi lt) hn hpos
  · rw [if_neg h0]
    refine ⟨?_, fun h => absurd h h0, fun _ => rfl, fun hpos => absurd (le_of_lt hpos) h0⟩
    constructor
    · intro h
      exact absurd h (by simp [CREDIS_ERR_PROTOCOL])
    · intro h
      exact absurd h h0

/-- C1, witness for the amended theorem at the bulk length 3 with payload
line abc CRLF. -/
theorem receivebulk_no_short_check_witness :
    0 ≤ atoi [51] ∧
    (((cr_receivebulk freshBuf netW1 freshReply [51]).code = 0 ↔
        0 ≤ (cr_readln freshBuf netW1 (atoi [51])).rc) ∧
      (0 ≤ (cr_readln freshBuf netW1 (atoi [51])).rc →
        (cr_receivebulk freshBuf netW1 freshReply [51]).rep.bulk =
          some ((cr_readln freshBuf netW1 (atoi [51])).line.getD [51])) ∧
      ((cr_readln freshBuf netW1 (atoi [51])).rc < 0 →
        (cr_receivebulk freshBuf netW1 freshReply [51]).code = CREDIS_ERR_PROTOCOL) ∧
      (0 < (cr_readln freshBuf netW1 (atoi [51])).rc →
        atoi [51] ≤ (cr_readln freshBuf netW1 (atoi [51])).rc)) :=
  ⟨by decide, receivebulk_no_short_check freshBuf netW1 freshReply [51] (by decide)⟩

/-- C2.  Chunk-boundary invariance fails: starting from the reachable
buffer state after the decode of +OK CRLF (whose stale newline remains at
position 4), the wire +ab CR Z CR LF read in one chunk yields the line
+ab CR Z of length 5 with the cursor at 7, but read in chunks of 4 and 3
bytes yields the line +ab of length 3 with the cursor at 5: cr_findnl
matches the carriage return at the end of the first chunk against the
stale newline one byte past the valid length. -/
theorem readln_chunk_boundary_divergence :
    rlnSingle.rc = 5 ∧ rlnChunked.rc = 3 ∧
    rlnSingle.line = some [43, 97, 98, 13, 90] ∧ rlnChunked.line = some [43, 97, 98] ∧
    rlnSingle.buf.idx = 7 ∧ rlnChunked.buf.idx = 5 := by
  decide

/-- C3.  The multibulk wire asterisk 1 CRLF dollar 0 CRLF followed by peer
close terminates the stream before the single element's payload line has
arrived, yet the decoder returns success with one element recorded: the
end-of-stream return 0 of cr_readln is indistinguishable from the
declared zero payload length, so the comparison against the declared
length passes and the element offset is taken from the uninitialized
local variable. -/
theorem receivemultibulk_eof_zero_bulk_success :
    run3.code = 0 ∧ run3.conn.reply.mb.len = 1 ∧ run3.code ≠ CREDIS_ERR_PROTOCOL := by
  decide

/-- C4, counterexample.  When the INFO round-trip itself fails (here with
a timeout), credis_connect skips the version scan entirely and returns
the handle with the calloc-zeroed version, contradicting the claim that
a handle is returned only when a parseable version was obtained. -/
theorem connect_returns_handle_on_info_failure :
    connectVersionPhase CREDIS_ERR_TIMEOUT [] = some (0, 0, 0) := by
  decide

/-- C4, amended.  When the INFO round-trip succeeds, the handle is
returned exactly when the token scan converts at least two items: fewer
than two is the hard connect failure; exactly two (the legacy
two-component format) stores the second component as patch and forces
minor to 0; three stores the triple as scanned. -/
theorem connect_version_scan_spec (payload : List Nat) (items : Nat) (ma mi pa : Int)
    (h : scanTokens (splitRN payload) 0 (0, 0, 0) = (items, (ma, mi, pa))) :
    (items < 2 → connectVersionPhase 0 payload = none) ∧
    (items = 2 → connectVersionPhase 0 payload = some (ma, 0, mi)) ∧
    (items = 3 → connectVersionPhase 0 payload = some (ma, mi, pa)) := by
  simp only [connectVersionPhase, if_pos rfl, h]
  refine ⟨?_, ?_, ?_⟩
  · intro hi
    simp [hi]
  · intro hi
    subst hi
    norm_num
  · intro hi
    subst hi
    norm_num

/-- C4, witness for the amended theorem at the legacy payload
redis_version:1.02, stored as version 1.0.2. -/
theorem connect_version_scan_spec_witness :
    scanTokens (splitRN payload102) 0 (0, 0, 0) = (2, (1, 2, 0)) ∧
    connectVersionPhase 0 payload102 = some (1, 0, 2) :=
  ⟨by decide, (connect_version_scan_spec payload102 2 1 2 0 (by decide)).2.1 rfl⟩

/-- C5, counterexample.  A server error reply (minus prefix) is reported
with CREDIS_ERR_PROTOCOL, the very code used for structural protocol
failures such as an unknown prefix byte, so the reported failure is not
distinct from ProtocolError. -/
theorem error_reply_uses_protocol_code :
    (cr_receivereply freshConn net5a CR_INLINE).code = CREDIS_ERR_PROTOCOL ∧
    (cr_receivereply freshConn net5b CR_INLINE).code = CREDIS_ERR_PROTOCOL := by
  decide

/-- C5, amended.  A reply whose first line carries the error prefix is
reported with the shared CREDIS_ERR_PROTOCOL code, but unlike structural
failures its text (the line after the prefix) is stored on the connection
and retrievable afterwards via credis_errorreply. -/
theorem error_reply_text_retrievable (conn : Conn) (net : Net) (rt : Nat) (l : List Nat)
    (hrc : 0 < (cr_readln (bufReset conn.buf) net 0).rc)
    (hline : (cr_readln (bufReset conn.buf) net 0).line = some l)
    (hp : l.headD 0 = CR_ERROR) :
    (cr_receivereply conn net rt).code = CREDIS_ERR_PROTOCOL ∧
    (cr_receivereply conn net rt).conn.reply.line = some l.tail ∧
    credis_errorreply (cr_receivereply conn net rt).conn = some l.tail := by
  simp only [cr_receivereply, cr_receivereply_dispatch, if_pos hrc, hline, Option.getD_some]
  have hcond : ¬(l.headD 0 ≠ rt ∧ l.headD 0 ≠ CR_ERROR) := by
    intro hc
    exact hc.2 hp
  rw [if_neg hcond, if_pos hp]
  simp [cr_receiveerror, credis_errorreply]

/-- C5, witness for the amended theorem at the error reply
minus ERR space x CRLF. -/
theorem error_reply_text_retrievable_witness :
    (0 < (cr_readln (bufReset freshConn.buf) net5a 0).rc ∧
      (cr_readln (bufReset freshConn.buf) net5a 0).line = some [45, 69, 82, 82, 32, 120] ∧
      ([45, 69, 82, 82, 32, 120] : List Nat).headD 0 = CR_ERROR) ∧
    (cr_receivereply freshConn net5a CR_INLINE).code = CREDIS_ERR_PROTOCOL ∧
    (cr_receivereply freshConn net5a CR_INLINE).conn.reply.line = some [69, 82, 82, 32, 120] ∧
    credis_errorreply (cr_receivereply freshConn net5a CR_INLINE).conn =
      some [69, 82, 82, 32, 120] :=
  ⟨⟨by decide, by decide, by decide⟩,
    error_reply_text_retrievable freshConn net5a CR_INLINE [45, 69, 82, 82, 32, 120]
      (by decide) (by decide) (by decide)⟩

/-- C6, counterexample.  A growth request of exactly CR_BUFFER_SIZE bytes
on a buffer of capacity 4096 yields capacity 12288, not the
4096 + ceil(4096/4096) * 4096 = 8192 the claim requires: cr_moremem
allocates (size/CR_BUFFER_SIZE + 1) increments, which exceeds the ceiling
whenever the request is a multiple of the increment. -/
theorem moremem_not_ceil :
    (cr_moremem freshBuf CR_BUFFER_SIZE).size = 12288 ∧
    (cr_moremem freshBuf CR_BUFFER_SIZE).size ≠ freshBuf.size + CR_BUFFER_SIZE := by
  decide

/-- C6, amended.  A successful growth by extra bytes yields capacity
old + (extra / CR_BUFFER_SIZE + 1) * CR_BUFFER_SIZE (integer division),
which is always strictly more than extra additional bytes, and the
previously allocated contents, the filled length and the cursor are
preserved unchanged. -/
theorem moremem_growth_formula (buf : CrBuffer) (extra : Nat) :
    (cr_moremem buf extra).size = buf.size + (extra / CR_BUFFER_SIZE + 1) * CR_BUFFER_SIZE ∧
    buf.size + extra < (cr_moremem buf extra).size ∧
    (∀ i, (cr_moremem buf extra).data i = buf.data i) ∧
    (cr_moremem buf extra).len = buf.len ∧
    (cr_moremem buf extra).idx = buf.idx := by
  refine ⟨rfl, ?_, fun i => rfl, rfl, rfl⟩
  simp only [cr_moremem, CR_BUFFER_SIZE]
  omega

/-- C7.  The buffer invariant idx at most len is violated in a reachable
state: after a first well-formed decode of +OK CRLF, a second decode of
+ab CRLF delivered in chunks of 4 and 1 bytes matches the carriage return
at the end of the first chunk against the stale newline at position
buf.len, leaving idx = 5 while len = 4, even though both decodes report
success. -/
theorem buffer_invariant_violated_reachable :
    run1.code = 0 ∧ run2.code = 0 ∧ run2.conn.buf.len < run2.conn.buf.idx := by
  decide

/-- C8.  A send that times out after a strict prefix returns a
non-negative byte count below the command length and cr_sendandreceive
reports CREDIS_ERR_TIMEOUT; a negative transport return is reported as
CREDIS_ERR_SEND, and CREDIS_ERR_SEND is reported only in that case (the
receive path never produces it). -/
theorem send_timeout_never_send_error (conn : Conn) (evs : List SendEv) (rt : Nat) (net : Net) :
    (senddataOutcome conn.buf.len evs 0 = SendOutcome.timedout →
      0 ≤ cr_senddata evs conn.buf.len ∧
      cr_senddata evs conn.buf.len < (conn.buf.len : Int) ∧
      (cr_sendandreceive conn evs rt net).code = CREDIS_ERR_TIMEOUT) ∧
    (cr_senddata evs conn.buf.len < 0 →
      (cr_sendandreceive conn evs rt net).code = CREDIS_ERR_SEND) ∧
    ((cr_sendandreceive conn evs rt net).code = CREDIS_ERR_SEND →
      cr_senddata evs conn.buf.len < 0) := by
  simp only [cr_sendandreceive, cr_senddata]
  refine ⟨?_, ?_, ?_⟩
  · intro h
    obtain ⟨h1, h2⟩ := senddata_timedout conn.buf.len evs 0 h
    refine ⟨h1, h2, ?_⟩
    rw [if_pos (by omega), if_neg (by omega)]
  · intro h
    rw [if_pos (by omega), if_pos h]
  · intro h
    by_cases hq : senddataGo conn.buf.len evs 0 = (conn.buf.len : Int)
    · exfalso
      rw [if_neg (by omega)] at h
      exact cr_receivereply_ne_send conn net rt h
    · rw [if_pos hq] at h
      by_cases hneg : senddataGo conn.buf.len evs 0 < 0
      · exact hneg
      · rw [if_neg hneg] at h
        exact absurd h (by simp [CREDIS_ERR_TIMEOUT, CREDIS_ERR_SEND])

/-- C8, witness at a five-byte command whose script accepts three bytes
and then times out. -/
theorem send_timeout_never_send_error_witness :
    senddataOutcome conn5.buf.len evsW 0 = SendOutcome.timedout ∧
    (0 ≤ cr_senddata evsW conn5.buf.len ∧
      cr_senddata evsW conn5.buf.len < (conn5.buf.len : Int) ∧
      (cr_sendandreceive conn5 evsW CR_INT net10).code = CREDIS_ERR_TIMEOUT) :=
  ⟨by decide, (send_timeout_never_send_error conn5 evsW CR_INT net10).1 (by decide)⟩

/-- C9, counterexample.  The integer reply colon 3000000000 CRLF carries a
value inside i64 but outside 32-bit int range; the decoder stores the
wrapped int value -1294967296, not the i64 value 3000000000, because the
reply field is a C int fed by atoi. -/
theorem receiveint_int_width_wrap :
    (cr_receivereply freshConn net9 CR_INT).code = 0 ∧
    (cr_receivereply freshConn net9 CR_INT).conn.reply.integer = -1294967296 ∧
    (cr_receivereply freshConn net9 CR_INT).conn.reply.integer ≠ 3000000000 := by
  decide

/-- C9, amended.  For every integer reply line whose permissively parsed
value (atoi: base-10 signed, 0 for non-numeric text) lies within 32-bit
int range, the stored reply integer equals that value exactly. -/
theorem receiveint_in_range_exact (rep : CrReply) (l : List Nat)
    (h1 : -(2 ^ 31) ≤ atoi l) (h2 : atoi l < 2 ^ 31) :
    (cr_receiveint rep l).2.integer = atoi l := by
  simp only [cr_receiveint, c_int_wrap]
  rw [Int.emod_eq_of_lt (by omega) (by omega)]
  omega

/-- C9, witness at the non-numeric line abc, stored as 0. -/
theorem receiveint_in_range_exact_witness :
    (-(2 ^ 31) ≤ atoi [97, 98, 99] ∧ atoi [97, 98, 99] < 2 ^ 31) ∧
    (cr_receiveint freshReply [97, 98, 99]).2.integer = atoi [97, 98, 99] :=
  ⟨⟨by decide, by decide⟩,
    receiveint_in_range_exact freshReply [97, 98, 99] (by decide) (by decide)⟩

/-- C10.  Given a successful round-trip (full send, integer reply decoded
with result 0), credis_sadd (via cr_setaddrem) and credis_zadd return -1
exactly when the decoded integer reply is 0, and return 0 when it is
nonzero. -/
theorem sadd_zadd_return_mapping (conn : Conn) (evs : List SendEv) (net : Net)
    (h : (cr_sendandreceive conn evs CR_INT net).code = 0) :
    ((credis_sadd conn evs net).code = -1 ↔
      (cr_sendandreceive conn evs CR_INT net).conn.reply.integer = 0) ∧
    ((cr_sendandreceive conn evs CR_INT net).conn.reply.integer ≠ 0 →
      (credis_sadd conn evs net).code = 0) ∧
    ((credis_zadd conn evs net).code = -1 ↔
      (cr_sendandreceive conn evs CR_INT net).conn.reply.integer = 0) ∧
    ((cr_sendandreceive conn evs CR_INT net).conn.reply.integer ≠ 0 →
      (credis_zadd conn evs net).code = 0) := by
  simp only [credis_sadd, cr_setaddrem, credis_zadd]
  by_cases hz : (cr_sendandreceive conn evs CR_INT net).conn.reply.integer = 0
  · rw [if_pos ⟨h, hz⟩]
    refine ⟨by simp [hz], fun hc => absurd hz hc, by simp [hz], fun hc => absurd hz hc⟩
  · rw [if_neg (by simp [hz])]
    refine ⟨?_, fun _ => h, ?_, fun _ => h⟩
    · rw [h]
      constructor
      · intro hc
        cases hc
      · intro hc
        exact absurd hc hz
    · rw [h]
      constructor
      · intro hc
        cases hc
      · intro hc
        exact absurd hc hz

/-- C10, witness at a full five-byte send answered by the integer reply
colon 0 CRLF, mapped to -1. -/
theorem sadd_zadd_return_mapping_witness :
    (cr_sendandreceive conn5 evsW2 CR_INT net10).code = 0 ∧
    (((credis_sadd conn5 evsW2 net10).code = -1 ↔
        (cr_sendandreceive conn5 evsW2 CR_INT net10).conn.reply.integer = 0) ∧
      ((cr_sendandreceive conn5 evsW2 CR_INT net10).conn.reply.integer ≠ 0 →
        (credis_sadd conn5 evsW2 net10).code = 0) ∧
      ((credis_zadd conn5 evsW2 net10).code = -1 ↔
        (cr_sendandreceive conn5 evsW2 CR_INT net10).conn.reply.integer = 0) ∧
      ((cr_sendandreceive conn5 evsW2 CR_INT net10).conn.reply.integer ≠ 0 →
        (credis_zadd conn5 evsW2 net10).code = 0)) :=
  ⟨by decide, sadd_zadd_return_mapping conn5 evsW2 net10 (by decide)⟩
